import Mathlib

/-!
Verification of the DevSync ai-engine review pipeline.

Shallow embedding of the three source files of the repository:
* `gemini_client.py` — `generate_review` (credential check, single outbound
  call, empty-response check),
* `db.py`            — `save_review` / `list_reviews` over an append-only
  store with comma-joined list fields,
* `main.py`          — the `ai_review` handler (mock mode, prompt building,
  JSON parsing, fallback policy, persistence).

External collaborators (the network call of the Gemini client, `json.loads`,
the SQL engine) are modelled as oracles / opaque state, following the spec's
scoping; everything the repository's own code does to the data is embedded
faithfully, including Python's dynamic typing of the values extracted from
the model's JSON reply.

Python strings are modelled through their character lists, and the string
operations the source uses (`strip`, `lower`, `split`, `join`) are defined
below with Python's semantics.
-/

set_option linter.unusedVariables false

namespace DevSync

/-- Whitespace test for a character, as used by Python's `str.strip()`. -/
def isWs (c : Char) : Bool := c.isWhitespace

/-- Drop leading whitespace characters. -/
def dropLeadWs (l : List Char) : List Char := l.dropWhile isWs

/-- Drop trailing whitespace characters. -/
def dropTrailWs (l : List Char) : List Char := (l.reverse.dropWhile isWs).reverse

/-- Python `str.strip()` over the character list of a string. -/
def stripChars (l : List Char) : List Char := dropTrailWs (dropLeadWs l)

/-- Python `str.strip()`. -/
def pyStrip (s : String) : String := ⟨stripChars s.data⟩

/-- Python `str.lower()` (ASCII letters; the configuration values compared
in the source are ASCII). -/
def pyLower (s : String) : String := ⟨s.data.map Char.toLower⟩

/-- Python `s.split(sep)` for a one-character separator: `"".split(",")` is
`[""]`, and consecutive separators yield empty fragments. -/
def splitOnChar (sep : Char) : List Char → List (List Char)
  | [] => [[]]
  | c :: t =>
    if c = sep then [] :: splitOnChar sep t
    else
      match splitOnChar sep t with
      | [] => [[c]]
      | h :: r => (c :: h) :: r

/-- Python `sep.join` over character lists. -/
def joinWithSep (sep : List Char) : List (List Char) → List Char
  | [] => []
  | [x] => x
  | x :: y :: r => x ++ sep ++ joinWithSep sep (y :: r)

/-- Python `sep.join(strings)`. -/
def pyJoinStrs (sep : String) (l : List String) : String :=
  ⟨joinWithSep sep.data (l.map String.data)⟩

@[simp] theorem string_mk_data (s : String) : (⟨s.data⟩ : String) = s := rfl

theorem dropWhile_idem (p : Char → Bool) (l : List Char) :
    (l.dropWhile p).dropWhile p = l.dropWhile p := by
  induction l with
  | nil => rfl
  | cons c t ih =>
    by_cases h : p c = true
    · simp [List.dropWhile_cons, h, ih]
    · simp [List.dropWhile_cons, h]

theorem length_dropWhile_le (p : Char → Bool) (l : List Char) :
    (l.dropWhile p).length ≤ l.length := by
  induction l with
  | nil => simp
  | cons c t ih =>
    by_cases h : p c = true
    · simp only [List.dropWhile_cons, h, if_true]
      exact Nat.le_trans ih (Nat.le_succ _)
    · simp [List.dropWhile_cons, h]

theorem dropWhile_append_singleton (p : Char → Bool) (c : Char) (h : p c = false)
    (x : List Char) : (x ++ [c]).dropWhile p = x.dropWhile p ++ [c] := by
  induction x with
  | nil => simp [List.dropWhile_cons, h]
  | cons a t ih =>
    by_cases ha : p a = true
    · simp [List.dropWhile_cons, ha, ih]
    · simp [List.dropWhile_cons, ha]

theorem dropTrailWs_cons (c : Char) (t : List Char) (h : isWs c = false) :
    dropTrailWs (c :: t) = c :: dropTrailWs t := by
  simp [dropTrailWs, dropWhile_append_singleton isWs c h]

theorem stripChars_nil : stripChars [] = [] := rfl

theorem stripChars_cons_ws (c : Char) (t : List Char) (h : isWs c = true) :
    stripChars (c :: t) = stripChars t := by
  simp [stripChars, dropLeadWs, List.dropWhile_cons, h]

theorem stripChars_cons_not_ws (c : Char) (t : List Char) (h : isWs c = false) :
    stripChars (c :: t) = c :: dropTrailWs t := by
  simp [stripChars, dropLeadWs, List.dropWhile_cons, h, dropTrailWs_cons c t h]

theorem dropTrailWs_idem (l : List Char) :
    dropTrailWs (dropTrailWs l) = dropTrailWs l := by
  simp [dropTrailWs, dropWhile_idem]

theorem dropLeadWs_dropTrailWs (l : List Char) (h : dropLeadWs l = l) :
    dropLeadWs (dropTrailWs l) = dropTrailWs l := by
  cases l with
  | nil => rfl
  | cons c t =>
    have hc : isWs c = false := by
      cases hw : isWs c with
      | false => rfl
      | true =>
        exfalso
        have h1 : dropLeadWs t = c :: t := by
          have h2 := h
          simpa [dropLeadWs, List.dropWhile_cons, hw] using h2
        have h3 : (t.dropWhile isWs).length ≤ t.length := length_dropWhile_le isWs t
        rw [show t.dropWhile isWs = dropLeadWs t from rfl, h1] at h3
        simp at h3
    rw [dropTrailWs_cons c t hc]
    simp [dropLeadWs, List.dropWhile_cons, hc]

theorem stripChars_idem (l : List Char) : stripChars (stripChars l) = stripChars l := by
  show dropTrailWs (dropLeadWs (dropTrailWs (dropLeadWs l))) = dropTrailWs (dropLeadWs l)
  rw [dropLeadWs_dropTrailWs (dropLeadWs l) (dropWhile_idem isWs l), dropTrailWs_idem]

theorem pyStrip_idem (s : String) : pyStrip (pyStrip s) = pyStrip s := by
  show (⟨stripChars (stripChars s.data)⟩ : String) = ⟨stripChars s.data⟩
  rw [stripChars_idem]

theorem stripChars_eq_nil_iff (l : List Char) :
    stripChars l = [] ↔ l.all isWs = true := by
  induction l with
  | nil => simp [stripChars_nil]
  | cons c t ih =>
    cases hw : isWs c with
    | true => simp [stripChars_cons_ws c t hw, ih, hw]
    | false => simp [stripChars_cons_not_ws c t hw, hw]

theorem splitOnChar_ne_nil (sep : Char) (l : List Char) : splitOnChar sep l ≠ [] := by
  cases l with
  | nil => simp [splitOnChar]
  | cons c t =>
    simp only [splitOnChar]
    by_cases h : c = sep
    · simp [h]
    · simp only [h, if_false]
      cases splitOnChar sep t <;> simp

theorem splitOnChar_no_sep (sep : Char) (a : List Char) (h : sep ∉ a) :
    splitOnChar sep a = [a] := by
  induction a with
  | nil => rfl
  | cons c t ih =>
    have hc : ¬(c = sep) := by
      intro e
      exact h (by simp [e])
    have ht : sep ∉ t := by
      intro m
      exact h (by simp [m])
    simp [splitOnChar, hc, ih ht]

theorem splitOnChar_append (sep : Char) (a : List Char) (h : sep ∉ a) (t : List Char) :
    splitOnChar sep (a ++ sep :: t) = a :: splitOnChar sep t := by
  induction a with
  | nil => simp [splitOnChar]
  | cons c a2 ih =>
    have hc : ¬(c = sep) := by
      intro e
      exact h (by simp [e])
    have ha : sep ∉ a2 := by
      intro m
      exact h (by simp [m])
    simp [splitOnChar, hc, ih ha]

/-- The fragment cleaning of `db.list_reviews`:
`[x.strip() for x in s.split(",") if x.strip()]` at the character level. -/
def cleanSplitChars (l : List Char) : List (List Char) :=
  ((splitOnChar ',' l).map stripChars).filter (fun x => !x.isEmpty)

/-- The fragment cleaning of `db.list_reviews` on strings. -/
def cleanSplit (s : String) : List String :=
  (cleanSplitChars s.data).map (fun l => (⟨l⟩ : String))

theorem cleanSplitChars_join (elems : List (List Char))
    (h : ∀ e ∈ elems, e ≠ [] ∧ stripChars e = e ∧ ',' ∉ e) :
    cleanSplitChars (joinWithSep [',', ' '] elems) = elems := by
  induction elems with
  | nil => rfl
  | cons e rest ih =>
    obtain ⟨he, hs, hc⟩ := h e (by simp)
    cases rest with
    | nil =>
      simp [cleanSplitChars, joinWithSep, splitOnChar_no_sep ',' e hc, hs, he]
    | cons e2 rest2 =>
      have hrest : ∀ x ∈ e2 :: rest2, x ≠ [] ∧ stripChars x = x ∧ ',' ∉ x := by
        intro x hx
        exact h x (by simp [hx])
      have ihr := ih hrest
      have hj : joinWithSep [',', ' '] (e :: e2 :: rest2) =
          e ++ ',' :: ' ' :: joinWithSep [',', ' '] (e2 :: rest2) := by
        simp [joinWithSep]
      cases hsp : splitOnChar ',' (joinWithSep [',', ' '] (e2 :: rest2)) with
      | nil => exact absurd hsp (splitOnChar_ne_nil _ _)
      | cons hh hr =>
        have hstep : splitOnChar ',' (joinWithSep [',', ' '] (e :: e2 :: rest2)) =
            e :: (' ' :: hh) :: hr := by
          rw [hj, splitOnChar_append ',' e hc]
          simp [splitOnChar, hsp, show ¬(' ' = ',') by decide]
        have hws : stripChars (' ' :: hh) = stripChars hh :=
          stripChars_cons_ws _ _ (by decide)
        have hrw : cleanSplitChars (joinWithSep [',', ' '] (e2 :: rest2)) =
            (List.map stripChars (hh :: hr)).filter (fun x => !x.isEmpty) := by
          rw [cleanSplitChars, hsp]
        rw [cleanSplitChars, hstep]
        rw [hrw] at ihr
        have hne : (!e.isEmpty) = true := by
          cases e with
          | nil => exact absurd rfl he
          | cons a b => rfl
        simp only [List.map_cons, List.filter_cons, hws, hs]
        simp only [List.map_cons, List.filter_cons] at ihr
        simp only [ihr, hne, if_true]

theorem cleanSplit_pyJoinStrs (l : List String)
    (h : ∀ s ∈ l, s ≠ "" ∧ pyStrip s = s ∧ ',' ∉ s.data) :
    cleanSplit (pyJoinStrs ", " l) = l := by
  have hd : ∀ e ∈ l.map String.data, e ≠ [] ∧ stripChars e = e ∧ ',' ∉ e := by
    intro e he
    obtain ⟨s, hs, rfl⟩ := List.mem_map.mp he
    obtain ⟨h1, h2, h3⟩ := h s hs
    refine ⟨?_, ?_, h3⟩
    · intro hnil
      apply h1
      cases s with
      | mk d =>
        have hd2 : d = [] := by simpa using hnil
        rw [hd2]
    · exact congrArg String.data h2
  have hjoin := cleanSplitChars_join (l.map String.data) hd
  show (cleanSplitChars (joinWithSep (", ".data) (l.map String.data))).map
      (fun x => (⟨x⟩ : String)) = l
  rw [show (", ".data) = [',', ' '] from rfl, hjoin, List.map_map]
  have hmap : ∀ xs : List String,
      List.map ((fun x => (⟨x⟩ : String)) ∘ String.data) xs = xs := by
    intro xs
    induction xs with
    | nil => rfl
    | cons a b ihb =>
      rw [List.map_cons, ihb]
      rfl
  exact hmap l

theorem cleanSplit_elem (s x : String) (hx : x ∈ cleanSplit s) :
    x ≠ "" ∧ pyStrip x = x := by
  obtain ⟨cs, hcs, rfl⟩ := List.mem_map.mp hx
  obtain ⟨hmem, hne⟩ := List.mem_filter.mp hcs
  obtain ⟨y, _, rfl⟩ := List.mem_map.mp hmem
  constructor
  · intro hmk
    have : stripChars y = [] := by
      cases hmk2 : stripChars y with
      | nil => rfl
      | cons a b =>
        rw [hmk2] at hmk
        exact absurd (congrArg String.data hmk) (by simp)
    rw [this] at hne
    simp at hne
  · show (⟨stripChars (stripChars y)⟩ : String) = ⟨stripChars y⟩
    rw [stripChars_idem]

/-! ## Data model -/

/-- A Python exception: its class name (`type(e).__name__`) and message. -/
structure PyExc where
  name : String
  msg : String
deriving DecidableEq

/-- A value produced by `json.loads` (numbers collapsed to integers; the
claims under verification do not involve fractional literals). -/
inductive JsonVal where
  | null : JsonVal
  | bool : Bool → JsonVal
  | num : Int → JsonVal
  | str : String → JsonVal
  | arr : List JsonVal → JsonVal
  | obj : List (String × JsonVal) → JsonVal

/-- A list of strings as a JSON value. -/
def jstrArr (l : List String) : JsonVal := .arr (l.map .str)

/-! ## gemini_client.py -/

/-- Outcome of the single outbound `generate_content` call (network oracle):
either the client raises, or it returns a response whose `.text` may be
`None`. -/
inductive NetResult where
  | raise : PyExc → NetResult
  | reply : Option String → NetResult

/-- Configuration read from the process environment: `MOCK_MODE`,
`GEMINI_API_KEY` and `GEMINI_MODEL` (each `none` when unset). -/
structure Env where
  mockMode : Option String
  apiKey : Option String
  geminiModel : Option String

/-- `os.getenv(name, default)`. -/
def pyGetenv (v : Option String) (dflt : String) : String := v.getD dflt

/-- Python truthiness of `os.getenv(name)` (both `None` and `""` are falsy,
matching `if not api_key`). -/
def pyTruthy (v : Option String) : Bool :=
  match v with
  | none => false
  | some s => !s.data.isEmpty

/-- `x or ""` for an optional string (`resp.text or ""`). -/
def pyOrEmpty (v : Option String) : String :=
  match v with
  | none => ""
  | some s => s

/-- `MODEL_NAME = os.getenv("GEMINI_MODEL", "gemini-3-pro-preview")`. -/
def MODEL_NAME (env : Env) : String := pyGetenv env.geminiModel "gemini-3-pro-preview"

/-- `gemini_client.generate_review`: raises ValueError when the credential is
absent or empty, otherwise performs the single outbound call (`net`), strips
the reply text, raises RuntimeError when nothing remains, and otherwise
returns the text together with the model identifier used. -/
def generate_review (env : Env) (net : NetResult) (prompt : String) :
    Except PyExc (String × String) :=
  if !pyTruthy env.apiKey then
    .error ⟨"ValueError", "GEMINI_API_KEY is missing"⟩
  else
    match net with
    | .raise e => .error e
    | .reply t =>
      let text := pyStrip (pyOrEmpty t)
      if text = "" then .error ⟨"RuntimeError", "Empty response from Gemini"⟩
      else .ok (text, MODEL_NAME env)

/-! ## db.py -/

/-- One row of the `code_reviews` table. `summary` keeps the dynamically
typed value the caller passed (the engine stores it opaquely); `risks` and
`improvements` are the comma-joined TEXT columns. `created_at` is assigned
by the database engine and is outside this model. -/
structure DbRow where
  id : Nat
  summary : JsonVal
  risks : String
  improvements : String
  model : String

/-- The storage state: whether `DATABASE_URL` was configured (else every
operation is a no-op / empty), the next SERIAL id, the rows in insertion
order (ids are assigned from the increasing sequence, so insertion order is
ascending id order), and an instrumentation counter of `save_review`
invocations (the spec's test double). -/
structure Store where
  configured : Bool
  nextId : Nat
  rows : List DbRow
  saveCalls : Nat

/-- The strings of a JSON array, when every element is a string. -/
def strList? : List JsonVal → Option (List String)
  | [] => some []
  | .str s :: t => (strList? t).map (fun xs => s :: xs)
  | _ => none

/-- Python `sep.join(v)` on a dynamically typed value: joins a list of
strings, the characters of a string, or the keys of a dict; any other value
(or a non-string list element) raises TypeError. -/
def pyJoinDyn (sep : String) : JsonVal → Except PyExc String
  | .str s => .ok (pyJoinStrs sep (s.data.map (fun c => (⟨[c]⟩ : String))))
  | .arr l =>
    match strList? l with
    | some xs => .ok (pyJoinStrs sep xs)
    | none => .error ⟨"TypeError", "sequence item: expected str instance"⟩
  | .obj kvs => .ok (pyJoinStrs sep (kvs.map Prod.fst))
  | _ => .error ⟨"TypeError", "can only join an iterable"⟩

/-- `db.save_review` as invoked with the dynamically typed values that
`main.ai_review` extracts from the parsed JSON. The invocation counter is
advanced first (the call happened); when storage is unconfigured the body
returns before touching the arguments; otherwise the two `", ".join(...)`
calls run (and may raise TypeError, in which case nothing is inserted),
and on success one row is appended with the next id. -/
def save_review_dyn (summary risks improvements : JsonVal) (model : String)
    (st : Store) : Except PyExc Unit × Store :=
  let st1 : Store := { st with saveCalls := st.saveCalls + 1 }
  if st1.configured then
    match pyJoinDyn ", " risks with
    | .error e => (.error e, st1)
    | .ok rs =>
      match pyJoinDyn ", " improvements with
      | .error e => (.error e, st1)
      | .ok imps =>
        (.ok (), { st1 with
          rows := st1.rows ++ [⟨st1.nextId, summary, rs, imps, model⟩],
          nextId := st1.nextId + 1 })
  else
    (.ok (), st1)

/-- `db.save_review` with arguments of the documented types
(`summary: str, risks: list, improvements: list, model: str`). -/
def save_review (summary : String) (risks improvements : List String)
    (model : String) (st : Store) : Store :=
  let st1 : Store := { st with saveCalls := st.saveCalls + 1 }
  if st1.configured then
    { st1 with
      rows := st1.rows ++ [⟨st1.nextId, .str summary,
        pyJoinStrs ", " risks, pyJoinStrs ", " improvements, model⟩],
      nextId := st1.nextId + 1 }
  else
    st1

/-- A record of the `GET /reviews` response: a stored review as rebuilt by
`db.list_reviews` (`created_at` omitted, see `DbRow`). -/
structure StoredReview where
  id : Nat
  summary : JsonVal
  risks : List String
  improvements : List String
  model : String

/-- One SELECT row as re-shaped by `list_reviews`: the TEXT columns are
split on ",", each fragment stripped, empty fragments discarded. -/
def rowToItem (r : DbRow) : StoredReview :=
  ⟨r.id, r.summary, cleanSplit r.risks, cleanSplit r.improvements, r.model⟩

/-- `db.list_reviews`: `ORDER BY id DESC LIMIT :limit`, empty when storage
is unconfigured. Ids are assigned from the engine's increasing sequence, so
descending id order over reachable stores is reverse insertion order; the
`StoreInv` theorems below establish exactly that reading. -/
def list_reviews (limit : Nat) (st : Store) : List StoredReview :=
  if st.configured then ((st.rows.reverse).take limit).map rowToItem else []

/-- Invariant of every reachable store: rows are in strictly ascending id
order and below the next SERIAL value. -/
def StoreInv (st : Store) : Prop :=
  st.rows.Pairwise (fun a b => a.id < b.id) ∧ ∀ r ∈ st.rows, r.id < st.nextId

/-! ## main.py -/

/-- The summary used by both the mock path and the fallback path of
`ai_review` (the source repeats the same literals in the two blocks). -/
def demoSummary : String := "This change adds a print statement."

/-- The risks list of the mock and fallback paths. -/
def demoRisks : List String :=
  ["Leaving debug prints in production code can clutter logs and leak information."]

/-- The improvements list of the mock and fallback paths. -/
def demoImprovements : List String :=
  ["Use structured logging instead of print().",
   "Add a small test to verify expected behavior.",
   "Remove debug output before merging to production."]

/-- The JSON body returned by `POST /ai/review`. The mock and success paths
leave `error` absent (`none`); field values keep Python's dynamic typing. -/
structure ReviewResponse where
  summary : JsonVal
  risks : JsonVal
  improvements : JsonVal
  raw : Option String
  model : String
  error : Option String
  rtype : String

/-- The fixed response of the mock path. -/
def mockResponse : ReviewResponse :=
  ⟨.str demoSummary, jstrArr demoRisks, jstrArr demoImprovements,
   none, "mock", none, "code-review"⟩

/-- The response of the `except` handler: canned content, a model tag
encoding the exception class, and the diagnostic string. -/
def fallbackResponse (e : PyExc) : ReviewResponse :=
  ⟨.str demoSummary, jstrArr demoRisks, jstrArr demoImprovements,
   none, "fallback:" ++ e.name, some e.msg, "code-review"⟩

/-- `os.getenv("MOCK_MODE", "false").lower() == "true"`. -/
def mockEnabled (env : Env) : Bool :=
  pyLower (pyGetenv env.mockMode "false") == "true"

/-- The instruction prompt built around the diff (the f-string of
`ai_review`, stripped as in the source). -/
def promptFor (diff_text : String) : String :=
  pyStrip ("\nYou are an AI code review agent.\n\nReturn ONLY valid JSON (no markdown, no backticks) with this exact schema:\n\x7b\n  \"summary\": \"string\",\n  \"risks\": [\"string\", \"...\"],\n  \"improvements\": [\"string\", \"...\"]\n\x7d\n\nCode diff:\n" ++ diff_text ++ "\n")

/-- Keyed lookup with a default over the association list of a JSON object
(the value side of Python's `dict.get(key, default)`). -/
def lookupD (kvs : List (String × JsonVal)) (key : String) (dflt : JsonVal) : JsonVal :=
  ((kvs.find? (fun p => p.1 == key)).map Prod.snd).getD dflt

/-- Python `data.get(key, default)`: a dict lookup with a default; calling
`.get` on any non-dict value raises AttributeError. -/
def pyGet (v : JsonVal) (key : String) (dflt : JsonVal) : Except PyExc JsonVal :=
  match v with
  | .obj kvs => .ok (lookupD kvs key dflt)
  | _ => .error ⟨"AttributeError", "object has no attribute get"⟩

/-- The three `data.get` calls of the success path. -/
def extractFields (data : JsonVal) : Except PyExc (JsonVal × JsonVal × JsonVal) := do
  let summary ← pyGet data "summary" (.str "")
  let risks ← pyGet data "risks" (.arr [])
  let improvements ← pyGet data "improvements" (.arr [])
  .ok (summary, risks, improvements)

/-- The body of the `try` block of `ai_review`: generate, strip and parse
the reply (`jl` is the behaviour of `json.loads`), extract the three
fields, persist, and build the success response. The store is threaded
through even when an exception is raised, since Python exceptions do not
roll back side effects. -/
def gemini_try (env : Env) (net : NetResult) (jl : String → Except PyExc JsonVal)
    (prompt : String) (st : Store) : Except PyExc ReviewResponse × Store :=
  match generate_review env net prompt with
  | .error e => (.error e, st)
  | .ok (raw_text, model_name) =>
    match jl (pyStrip raw_text) with
    | .error e => (.error e, st)
    | .ok data =>
      match extractFields data with
      | .error e => (.error e, st)
      | .ok (summary, risks, improvements) =>
        match save_review_dyn summary risks improvements model_name st with
        | (.error e, st1) => (.error e, st1)
        | (.ok _, st1) =>
          (.ok { summary := summary, risks := risks, improvements := improvements,
                 raw := some raw_text, model := model_name, error := none,
                 rtype := "code-review" }, st1)

/-- The `POST /ai/review` handler (`main.ai_review`). `net` is the outcome
of the single outbound Gemini call and `jl` the behaviour of `json.loads`,
both oracles for external collaborators. A `.error` result is a Python
exception escaping the handler: the mock-path save and the handler's own
fallback save are outside the `try` block, so an exception there would
propagate. -/
def ai_review (env : Env) (net : NetResult) (jl : String → Except PyExc JsonVal)
    (diff : String) (st : Store) : Except PyExc (ReviewResponse × Store) :=
  let diff_text := pyStrip diff
  if mockEnabled env then
    match save_review_dyn (.str demoSummary) (jstrArr demoRisks)
        (jstrArr demoImprovements) "mock" st with
    | (.error e, _) => .error e
    | (.ok _, st1) => .ok (mockResponse, st1)
  else
    match gemini_try env net jl (promptFor diff_text) st with
    | (.ok resp, st1) => .ok (resp, st1)
    | (.error e, st1) =>
      match save_review_dyn (.str demoSummary) (jstrArr demoRisks)
          (jstrArr demoImprovements) ("fallback:" ++ e.name) st1 with
      | (.error e2, _) => .error e2
      | (.ok _, st2) => .ok (fallbackResponse e, st2)

/-! ## Characterization lemmas -/

theorem strList?_map_str (l : List String) : strList? (l.map .str) = some l := by
  induction l with
  | nil => rfl
  | cons a t ih => simp [strList?, ih]

theorem pyJoinDyn_jstrArr (sep : String) (l : List String) :
    pyJoinDyn sep (jstrArr l) = .ok (pyJoinStrs sep l) := by
  simp [pyJoinDyn, jstrArr, strList?_map_str]

/-- On string-typed arguments the dynamic save never raises and coincides
with the statically typed `save_review`. -/
theorem save_review_dyn_str (s : String) (r i : List String) (m : String) (st : Store) :
    save_review_dyn (.str s) (jstrArr r) (jstrArr i) m st = (.ok (), save_review s r i m st) := by
  cases hc : st.configured with
  | true => simp [save_review_dyn, save_review, hc, pyJoinDyn_jstrArr]
  | false => simp [save_review_dyn, save_review, hc]

theorem save_review_char (s : String) (r i : List String) (m : String) (st : Store) :
    save_review s r i m st = { st with saveCalls := st.saveCalls + 1 } ∨
    (∃ row, save_review s r i m st =
      { configured := st.configured, nextId := st.nextId + 1,
        rows := st.rows ++ [row], saveCalls := st.saveCalls + 1 }) := by
  cases hc : st.configured with
  | false => left; simp [save_review, hc]
  | true =>
    right
    refine ⟨⟨st.nextId, .str s, pyJoinStrs ", " r, pyJoinStrs ", " i, m⟩, ?_⟩
    simp [save_review, hc]

theorem save_review_dyn_char (su r i : JsonVal) (m : String) (st : Store) :
    (∃ e, save_review_dyn su r i m st = (.error e, { st with saveCalls := st.saveCalls + 1 })) ∨
    save_review_dyn su r i m st = (.ok (), { st with saveCalls := st.saveCalls + 1 }) ∨
    (∃ row, save_review_dyn su r i m st =
      (.ok (), { configured := st.configured, nextId := st.nextId + 1,
                 rows := st.rows ++ [row], saveCalls := st.saveCalls + 1 })) := by
  cases hc : st.configured with
  | false => right; left; simp [save_review_dyn, hc]
  | true =>
    cases hr : pyJoinDyn ", " r with
    | error e => left; exact ⟨e, by simp [save_review_dyn, hc, hr]⟩
    | ok rs =>
      cases hi : pyJoinDyn ", " i with
      | error e => left; exact ⟨e, by simp [save_review_dyn, hc, hr, hi]⟩
      | ok imps =>
        right; right
        exact ⟨⟨st.nextId, su, rs, imps, m⟩, by simp [save_review_dyn, hc, hr, hi]⟩

/-- Saving preserves the reachability invariant: ids stay strictly
ascending and below the next SERIAL value. -/
theorem save_review_preserves_inv (s : String) (r i : List String) (m : String)
    (st : Store) (h : StoreInv st) : StoreInv (save_review s r i m st) := by
  obtain ⟨hp, hb⟩ := h
  cases hc : st.configured with
  | false =>
    constructor
    · simpa [save_review, hc] using hp
    · intro row hrow
      simp only [save_review, hc, if_false] at hrow ⊢
      exact hb row hrow
  | true =>
    constructor
    · simp only [save_review, hc, if_true]
      rw [List.pairwise_append]
      refine ⟨hp, List.pairwise_singleton _ _, ?_⟩
      intro a ha b hb2
      simp only [List.mem_singleton] at hb2
      rw [hb2]
      exact hb a ha
    · intro row hrow
      simp only [save_review, hc, if_true, List.mem_append, List.mem_singleton] at hrow ⊢
      cases hrow with
      | inl hold => exact Nat.lt_trans (hb row hold) (Nat.lt_succ_self _)
      | inr hnew => rw [hnew]; exact Nat.lt_succ_self _

theorem generate_review_ok_model (env : Env) (net : NetResult) (prompt a b : String)
    (h : generate_review env net prompt = .ok (a, b)) : b = MODEL_NAME env := by
  unfold generate_review at h
  by_cases hk : pyTruthy env.apiKey
  · simp only [hk, Bool.not_true, if_false] at h
    cases net with
    | raise e => simp at h
    | reply t =>
      by_cases he : pyStrip (pyOrEmpty t) = ""
      · simp [he] at h
      · simp [he] at h
        exact h.2.symm
  · simp only [Bool.not_eq_true'] at hk
    simp [hk] at h

/-- Case analysis of the try block: either it succeeds (model identifier is
the generator's, exactly one save call happened, at most one row appended),
or it raises (no row appended, and the save counter advanced exactly when
the failure happened inside save_review itself). -/
theorem gemini_try_char (env : Env) (net : NetResult) (jl : String → Except PyExc JsonVal)
    (prompt : String) (st : Store) :
    (∃ resp st1, gemini_try env net jl prompt st = (.ok resp, st1) ∧
      resp.model = MODEL_NAME env ∧
      st1.saveCalls = st.saveCalls + 1 ∧
      ((st1.rows = st.rows ∧ st1.nextId = st.nextId) ∨
        ∃ row, st1.rows = st.rows ++ [row] ∧ st1.nextId = st.nextId + 1) ∧
      st1.configured = st.configured) ∨
    (∃ e st1, gemini_try env net jl prompt st = (.error e, st1) ∧
      (st1.saveCalls = st.saveCalls ∨ st1.saveCalls = st.saveCalls + 1) ∧
      st1.rows = st.rows ∧ st1.nextId = st.nextId ∧
      st1.configured = st.configured) := by
  cases hg : generate_review env net prompt with
  | error e =>
    right
    exact ⟨e, st, by simp [gemini_try, hg], Or.inl rfl, rfl, rfl, rfl⟩
  | ok pr =>
    obtain ⟨raw_text, model_name⟩ := pr
    cases hj : jl (pyStrip raw_text) with
    | error e =>
      right
      exact ⟨e, st, by simp [gemini_try, hg, hj], Or.inl rfl, rfl, rfl, rfl⟩
    | ok data =>
      cases he : extractFields data with
      | error e =>
        right
        exact ⟨e, st, by simp [gemini_try, hg, hj, he], Or.inl rfl, rfl, rfl, rfl⟩
      | ok trip =>
        obtain ⟨su, ri, im⟩ := trip
        rcases save_review_dyn_char su ri im model_name st with ⟨e, hsd⟩ | hsd | ⟨row, hsd⟩
        · right
          refine ⟨e, { st with saveCalls := st.saveCalls + 1 },
            by simp [gemini_try, hg, hj, he, hsd], Or.inr rfl, rfl, rfl, rfl⟩
        · left
          refine ⟨{ summary := su, risks := ri, improvements := im, raw := some raw_text,
                    model := model_name, error := none, rtype := "code-review" },
                  { st with saveCalls := st.saveCalls + 1 }, ?_, ?_, rfl,
                  Or.inl ⟨rfl, rfl⟩, rfl⟩
          · simp [gemini_try, hg, hj, he, hsd]
          · exact generate_review_ok_model env net prompt raw_text model_name hg
        · left
          refine ⟨{ summary := su, risks := ri, improvements := im, raw := some raw_text,
                    model := model_name, error := none, rtype := "code-review" },
                  { configured := st.configured, nextId := st.nextId + 1,
                    rows := st.rows ++ [row], saveCalls := st.saveCalls + 1 }, ?_, ?_, rfl,
                  Or.inr ⟨row, rfl, rfl⟩, rfl⟩
          · simp [gemini_try, hg, hj, he, hsd]
          · exact generate_review_ok_model env net prompt raw_text model_name hg

/-- With mock mode enabled the handler short-circuits to the fixed mock
response and a single save of the demo content. -/
theorem ai_review_mock (env : Env) (net : NetResult) (jl : String → Except PyExc JsonVal)
    (diff : String) (st : Store) (h : mockEnabled env = true) :
    ai_review env net jl diff st =
      .ok (mockResponse, save_review demoSummary demoRisks demoImprovements "mock" st) := by
  simp [ai_review, h, save_review_dyn_str]

theorem fallback_ne_mock (s : String) : ("fallback:" ++ s) ≠ "mock" := by
  intro h
  have h2 : ("fallback:" ++ s).data = "mock".data := by rw [h]
  have h3 : ("fallback:" ++ s).data = 'f' :: 'a' :: 'l' :: 'l' :: 'b' :: 'a' :: 'c' :: 'k' :: ':' :: s.data := rfl
  rw [h3] at h2
  simp at h2

/-- Master characterization of the handler: it always answers with a
well-formed response (no exception escapes), the model tag names the path
taken, the save counter advances by one or two, and at most one row is
appended. -/
theorem ai_review_char (env : Env) (net : NetResult) (jl : String → Except PyExc JsonVal)
    (diff : String) (st : Store) :
    ∃ r st1, ai_review env net jl diff st = .ok (r, st1) ∧
      (r.model = "mock" ∨ r.model = MODEL_NAME env ∨ ∃ en, r.model = "fallback:" ++ en) ∧
      (st1.saveCalls = st.saveCalls + 1 ∨ st1.saveCalls = st.saveCalls + 2) ∧
      ((st1.rows = st.rows ∧ st1.nextId = st.nextId) ∨
        ∃ row, st1.rows = st.rows ++ [row] ∧ st1.nextId = st.nextId + 1) ∧
      st1.configured = st.configured := by
  cases hm : mockEnabled env with
  | true =>
    rcases save_review_char demoSummary demoRisks demoImprovements "mock" st with h | ⟨row, h⟩
    · refine ⟨mockResponse, _, ai_review_mock env net jl diff st hm, Or.inl rfl, ?_, ?_, ?_⟩
      · rw [h]; left; rfl
      · rw [h]; left; exact ⟨rfl, rfl⟩
      · rw [h]
    · refine ⟨mockResponse, _, ai_review_mock env net jl diff st hm, Or.inl rfl, ?_, ?_, ?_⟩
      · rw [h]; left; rfl
      · rw [h]; right; exact ⟨row, rfl, rfl⟩
      · rw [h]
  | false =>
    rcases gemini_try_char env net jl (promptFor (pyStrip diff)) st with
      ⟨resp, st1, hgt, hmodel, hcalls, hrows, hconf⟩ |
      ⟨e, st1, hgt, hcalls, hrows, hnext, hconf⟩
    · refine ⟨resp, st1, ?_, Or.inr (Or.inl hmodel), Or.inl hcalls, hrows, hconf⟩
      simp [ai_review, hm, hgt]
    · refine ⟨fallbackResponse e, save_review demoSummary demoRisks demoImprovements
        ("fallback:" ++ e.name) st1, ?_, Or.inr (Or.inr ⟨e.name, rfl⟩), ?_, ?_, ?_⟩
      · simp [ai_review, hm, hgt, save_review_dyn_str]
      · rcases save_review_char demoSummary demoRisks demoImprovements
            ("fallback:" ++ e.name) st1 with h | ⟨row, h⟩ <;>
          rw [h] <;>
          rcases hcalls with hc | hc
        · left; show st1.saveCalls + 1 = st.saveCalls + 1; rw [hc]
        · right; show st1.saveCalls + 1 = st.saveCalls + 2; rw [hc]
        · left; show st1.saveCalls + 1 = st.saveCalls + 1; rw [hc]
        · right; show st1.saveCalls + 1 = st.saveCalls + 2; rw [hc]
      · rcases save_review_char demoSummary demoRisks demoImprovements
          ("fallback:" ++ e.name) st1 with h | ⟨row, h⟩
        · rw [h]; left; exact ⟨hrows, hnext⟩
        · rw [h]; right
          refine ⟨row, ?_, ?_⟩
          · show st1.rows ++ [row] = st.rows ++ [row]; rw [hrows]
          · show st1.nextId + 1 = st.nextId + 1; rw [hnext]
      · rcases save_review_char demoSummary demoRisks demoImprovements
          ("fallback:" ++ e.name) st1 with h | ⟨row, h⟩
        · rw [h]; exact hconf
        · rw [h]; exact hconf

/-! ## Claims -/

/-- C1: for every diff input and every outcome of the generator and of JSON
parsing (configuration error, network error, empty response, malformed
JSON), the handler returns a well-formed ReviewResult — a response whose
model tag names the path taken — and never lets an exception propagate out
of the operation. -/
theorem C1_review_total (env : Env) (net : NetResult) (jl : String → Except PyExc JsonVal)
    (diff : String) (st : Store) :
    ∃ r st1, ai_review env net jl diff st = .ok (r, st1) ∧
      (r.model = "mock" ∨ r.model = MODEL_NAME env ∨ ∃ en, r.model = "fallback:" ++ en) := by
  obtain ⟨r, st1, h1, h2, _⟩ := ai_review_char env net jl diff st
  exact ⟨r, st1, h1, h2⟩

/-- C2 counterexample: with storage configured and a generator reply whose
JSON object carries a non-sequence `risks` (here the number 1), the
success-path save raises TypeError inside `", ".join`, the except handler
then saves the fallback, and `save_review` has been invoked twice (counter
goes from 0 to 2) — not exactly once as the claim states. -/
theorem C2_save_twice_counterexample :
    (match ai_review ⟨none, some "k", none⟩ (.reply (some "x"))
        (fun _ => .ok (.obj [("risks", .num 1)])) "d" ⟨true, 1, [], 0⟩ with
      | .ok (_, st1) => st1.saveCalls
      | .error _ => 0) = 2 ∧
    (⟨true, 1, [], 0⟩ : Store).saveCalls = 0 :=
  ⟨rfl, rfl⟩

/-- C2 (amended): every invocation of the handler invokes Store.save at
least once and at most twice — twice only when the success-path save itself
raises (non-joinable extracted fields) — and the store state afterwards is
the prior state with at most one appended record and no other change. -/
theorem C2_amended_save_bounds (env : Env) (net : NetResult)
    (jl : String → Except PyExc JsonVal) (diff : String) (st : Store) :
    ∃ r st1, ai_review env net jl diff st = .ok (r, st1) ∧
      (st1.saveCalls = st.saveCalls + 1 ∨ st1.saveCalls = st.saveCalls + 2) ∧
      ((st1.rows = st.rows ∧ st1.nextId = st.nextId) ∨
        ∃ row, st1.rows = st.rows ++ [row] ∧ st1.nextId = st.nextId + 1) ∧
      st1.configured = st.configured := by
  obtain ⟨r, st1, h1, _, h3, h4, h5⟩ := ai_review_char env net jl diff st
  exact ⟨r, st1, h1, h3, h4, h5⟩

/-- C4: with mock mode enabled the handler is deterministic and independent
of its input: any two calls — different diffs, different oracle outcomes,
different stores — yield identical summary, risks and improvements, with
model "mock". -/
theorem C4_mock_deterministic (env : Env) (d1 d2 : String) (net1 net2 : NetResult)
    (jl1 jl2 : String → Except PyExc JsonVal) (st1 st2 : Store)
    (h : mockEnabled env = true) :
    ∃ r1 s1 r2 s2, ai_review env net1 jl1 d1 st1 = .ok (r1, s1) ∧
      ai_review env net2 jl2 d2 st2 = .ok (r2, s2) ∧
      r1.summary = r2.summary ∧ r1.risks = r2.risks ∧
      r1.improvements = r2.improvements ∧ r1.model = "mock" ∧ r2.model = "mock" :=
  ⟨mockResponse, _, mockResponse, _, ai_review_mock env net1 jl1 d1 st1 h,
    ai_review_mock env net2 jl2 d2 st2 h, rfl, rfl, rfl, rfl, rfl⟩

theorem C4_mock_deterministic_witness :
    mockEnabled ⟨some "TRUE", none, none⟩ = true ∧
    (∃ r1 s1 r2 s2,
      ai_review ⟨some "TRUE", none, none⟩ (.reply none) (fun _ => .error ⟨"E", "m"⟩)
        "diff one" ⟨true, 1, [], 0⟩ = .ok (r1, s1) ∧
      ai_review ⟨some "TRUE", none, none⟩ (.raise ⟨"X", "y"⟩) (fun _ => .ok .null)
        "diff two" ⟨false, 5, [], 3⟩ = .ok (r2, s2) ∧
      r1.summary = r2.summary ∧ r1.risks = r2.risks ∧
      r1.improvements = r2.improvements ∧ r1.model = "mock" ∧ r2.model = "mock") :=
  ⟨rfl, C4_mock_deterministic ⟨some "TRUE", none, none⟩ "diff one" "diff two"
    (.reply none) (.raise ⟨"X", "y"⟩) (fun _ => .error ⟨"E", "m"⟩) (fun _ => .ok .null)
    ⟨true, 1, [], 0⟩ ⟨false, 5, [], 3⟩ rfl⟩

/-- C7: for every prompt, when the credential is absent (or empty, which
Python's truthiness also rejects) the generator fails immediately with the
ValueError "GEMINI_API_KEY is missing" — the spec's ConfigurationError —
and the outcome is the same whatever the network oracle would have done,
i.e. no outbound call is attempted. -/
theorem C7_missing_credential (env : Env) (net net2 : NetResult) (prompt : String)
    (h : pyTruthy env.apiKey = false) :
    generate_review env net prompt = .error ⟨"ValueError", "GEMINI_API_KEY is missing"⟩ ∧
    generate_review env net prompt = generate_review env net2 prompt := by
  constructor
  · simp [generate_review, h]
  · simp [generate_review, h]

theorem C7_missing_credential_witness :
    pyTruthy (⟨none, none, none⟩ : Env).apiKey = false ∧
    generate_review ⟨none, none, none⟩ (.raise ⟨"APIError", "boom"⟩) "p" =
      .error ⟨"ValueError", "GEMINI_API_KEY is missing"⟩ :=
  ⟨rfl, (C7_missing_credential ⟨none, none, none⟩ (.raise ⟨"APIError", "boom"⟩)
    (.reply none) "p" rfl).1⟩

/-- C8: with a credential configured, the generator fails with the
RuntimeError "Empty response from Gemini" — the spec's EmptyResponseError —
exactly when the reply text is empty or whitespace-only, and otherwise
returns the trimmed text paired with the model identifier actually used. -/
theorem C8_empty_response (env : Env) (prompt : String) (t : Option String)
    (h : pyTruthy env.apiKey = true) :
    ((generate_review env (.reply t) prompt =
        .error ⟨"RuntimeError", "Empty response from Gemini"⟩) ↔
      (pyOrEmpty t).data.all isWs = true) ∧
    ((pyOrEmpty t).data.all isWs = false →
      generate_review env (.reply t) prompt = .ok (pyStrip (pyOrEmpty t), MODEL_NAME env)) := by
  have hval : pyStrip (pyOrEmpty t) = "" ↔ (pyOrEmpty t).data.all isWs = true := by
    constructor
    · intro he
      exact (stripChars_eq_nil_iff _).mp (congrArg String.data he)
    · intro ha
      show (⟨stripChars (pyOrEmpty t).data⟩ : String) = ""
      rw [(stripChars_eq_nil_iff _).mpr ha]
  constructor
  · constructor
    · intro he
      by_cases hz : pyStrip (pyOrEmpty t) = ""
      · exact hval.mp hz
      · simp [generate_review, h, hz] at he
    · intro ha
      simp [generate_review, h, hval.mpr ha]
  · intro ha
    have hz : ¬ pyStrip (pyOrEmpty t) = "" := by
      intro hx
      rw [hval.mp hx] at ha
      simp at ha
    simp [generate_review, h, hz]

theorem C8_empty_response_witness :
    pyTruthy (⟨none, some "k", none⟩ : Env).apiKey = true ∧
    generate_review ⟨none, some "k", none⟩ (.reply (some " hi ")) "p" =
      .ok ("hi", "gemini-3-pro-preview") :=
  ⟨rfl, (C8_empty_response ⟨none, some "k", none⟩ "p" (some " hi ") rfl).2 (by decide)⟩

/-- C9: mock mode is selected iff MOCK_MODE, lowercased, equals exactly
"true"; any other value (unset defaults to "false", "1", "yes", a padded
" true") takes the generator path. Observed behaviourally with a raising
generator: the response's model is "mock" exactly when the flag matches. -/
theorem C9_mock_flag_iff (env : Env) (jl : String → Except PyExc JsonVal)
    (diff : String) (st : Store) :
    ∃ r st1, ai_review env (.raise ⟨"APIError", "boom"⟩) jl diff st = .ok (r, st1) ∧
      (r.model = "mock" ↔ pyLower (pyGetenv env.mockMode "false") = "true") := by
  cases hm : mockEnabled env with
  | true =>
    refine ⟨mockResponse, _, ai_review_mock env _ jl diff st hm, ?_⟩
    have hb := hm
    simp [mockEnabled] at hb
    simp [mockResponse, hb]
  | false =>
    have hnm : pyLower (pyGetenv env.mockMode "false") ≠ "true" := by
      intro hx
      have hmm : mockEnabled env = true := by simp [mockEnabled, hx]
      rw [hmm] at hm
      exact Bool.true_eq_false.mp hm
    cases hg : generate_review env (.raise ⟨"APIError", "boom"⟩) (promptFor (pyStrip diff)) with
    | ok pr =>
      exfalso
      by_cases hk : pyTruthy env.apiKey = true
      · simp [generate_review, hk] at hg
      · simp [generate_review, Bool.not_eq_true _ ▸ hk] at hg
    | error e =>
      have hgt : gemini_try env (.raise ⟨"APIError", "boom"⟩) jl
          (promptFor (pyStrip diff)) st = (.error e, st) := by
        simp [gemini_try, hg]
      refine ⟨fallbackResponse e,
        save_review demoSummary demoRisks demoImprovements ("fallback:" ++ e.name) st, ?_, ?_⟩
      · simp [ai_review, hm, hgt, save_review_dyn_str]
      · constructor
        · intro hmk
          exact absurd hmk (fallback_ne_mock e.name)
        · intro hx
          exact absurd hx hnm

/-! ## Shape predicates for JSON values -/

/-- Whether a JSON value is a string. -/
def isStr : JsonVal → Bool
  | .str _ => true
  | _ => false

/-- Whether a JSON value is an array of strings. -/
def isStrArr : JsonVal → Bool
  | .arr l => l.all isStr
  | _ => false

/-- The value of `key` in a JSON object is, when present, an array of
strings. -/
def fieldOk (kvs : List (String × JsonVal)) (key : String) : Bool :=
  match (kvs.find? (fun p => p.1 == key)).map Prod.snd with
  | some v => isStrArr v
  | none => true

theorem strList?_of_all_isStr (l : List JsonVal) (h : l.all isStr = true) :
    ∃ xs, strList? l = some xs := by
  induction l with
  | nil => exact ⟨[], rfl⟩
  | cons a t ih =>
    simp only [List.all_cons, Bool.and_eq_true] at h
    obtain ⟨h1, h2⟩ := h
    obtain ⟨xs, hxs⟩ := ih h2
    cases a with
    | str s => exact ⟨s :: xs, by simp [strList?, hxs]⟩
    | null => simp [isStr] at h1
    | bool b => simp [isStr] at h1
    | num n => simp [isStr] at h1
    | arr l2 => simp [isStr] at h1
    | obj kv => simp [isStr] at h1

theorem pyJoinDyn_ok_of_isStrArr (sep : String) (v : JsonVal) (h : isStrArr v = true) :
    ∃ s, pyJoinDyn sep v = .ok s := by
  cases v with
  | arr l =>
    obtain ⟨xs, hxs⟩ := strList?_of_all_isStr l (by simpa [isStrArr] using h)
    exact ⟨pyJoinStrs sep xs, by simp [pyJoinDyn, hxs]⟩
  | null => simp [isStrArr] at h
  | bool b => simp [isStrArr] at h
  | num n => simp [isStrArr] at h
  | str s => simp [isStrArr] at h
  | obj kv => simp [isStrArr] at h

theorem isStrArr_lookupD (kvs : List (String × JsonVal)) (key : String)
    (h : fieldOk kvs key = true) : isStrArr (lookupD kvs key (.arr [])) = true := by
  unfold fieldOk at h
  unfold lookupD
  cases hf : (kvs.find? (fun p => p.1 == key)).map Prod.snd with
  | none => simp [hf, isStrArr]
  | some v =>
    rw [hf] at h
    simpa [hf] using h

theorem save_review_dyn_ok (su r i : JsonVal) (m : String) (st : Store)
    (hr : ∃ s, pyJoinDyn ", " r = .ok s) (hi : ∃ s, pyJoinDyn ", " i = .ok s) :
    ∃ st1, save_review_dyn su r i m st = (.ok (), st1) := by
  obtain ⟨rs, hrs⟩ := hr
  obtain ⟨imps, himps⟩ := hi
  cases hc : st.configured with
  | true =>
    refine ⟨{ st with
        rows := st.rows ++ [DbRow.mk st.nextId su rs imps m],
        nextId := st.nextId + 1,
        saveCalls := st.saveCalls + 1 }, ?_⟩
    simp [save_review_dyn, hc, hrs, himps]
  | false =>
    exact ⟨{ st with saveCalls := st.saveCalls + 1 }, by simp [save_review_dyn, hc]⟩

/-! ## Claims about the store and the parsed-JSON path -/

/-- C3 counterexample: the one-element sequence `[""]` contains no comma
delimiter, yet after save, list drops the empty fragment: the newest
record's risks come back as `[]`, not `[""]` — the round trip is not exact. -/
theorem C3_roundtrip_counterexample :
    ((list_reviews 1 (save_review "s" [""] [] "m" ⟨true, 1, [], 0⟩)).map
      (fun r => r.risks)) = [([] : List String)] ∧
    ([""] : List String) ≠ ([] : List String) :=
  ⟨rfl, by decide⟩

/-- C3 (amended): for sequences whose elements are nonempty, contain no
comma and equal their own strip (no leading/trailing whitespace), save on
configured storage followed by list reproduces both sequences exactly —
same elements, same order, same count — in the newest record. -/
theorem C3_amended_roundtrip (st : Store) (s m : String) (risks improvements : List String)
    (limit : Nat) (hc : st.configured = true) (hl : 1 ≤ limit)
    (hr : ∀ x ∈ risks, x ≠ "" ∧ pyStrip x = x ∧ ',' ∉ x.data)
    (hi : ∀ x ∈ improvements, x ≠ "" ∧ pyStrip x = x ∧ ',' ∉ x.data) :
    ∃ rest, list_reviews limit (save_review s risks improvements m st) =
      (⟨st.nextId, .str s, risks, improvements, m⟩ : StoredReview) :: rest := by
  obtain ⟨k, rfl⟩ : ∃ k, limit = k + 1 := ⟨limit - 1, by omega⟩
  have hsave : save_review s risks improvements m st =
      { configured := st.configured, nextId := st.nextId + 1,
        rows := st.rows ++ [⟨st.nextId, .str s, pyJoinStrs ", " risks,
          pyJoinStrs ", " improvements, m⟩],
        saveCalls := st.saveCalls + 1 } := by
    simp [save_review, hc]
  refine ⟨(st.rows.reverse.take k).map rowToItem, ?_⟩
  rw [hsave]
  simp only [list_reviews, hc, if_true, List.reverse_append, List.reverse_cons,
    List.reverse_nil, List.nil_append, List.singleton_append, List.take_succ_cons,
    List.map_cons]
  have hrow : rowToItem ⟨st.nextId, .str s, pyJoinStrs ", " risks,
      pyJoinStrs ", " improvements, m⟩ =
      (⟨st.nextId, .str s, risks, improvements, m⟩ : StoredReview) := by
    simp [rowToItem, cleanSplit_pyJoinStrs risks hr, cleanSplit_pyJoinStrs improvements hi]
  rw [hrow]

theorem C3_amended_roundtrip_witness :
    (⟨true, 1, [], 0⟩ : Store).configured = true ∧ (1 : Nat) ≤ 1 ∧
    (∀ x ∈ ["missing tests", "no logging"], x ≠ "" ∧ pyStrip x = x ∧ ',' ∉ x.data) ∧
    (∀ x ∈ ["add tests"], x ≠ "" ∧ pyStrip x = x ∧ ',' ∉ x.data) ∧
    (∃ rest, list_reviews 1 (save_review "sum" ["missing tests", "no logging"]
        ["add tests"] "m" ⟨true, 1, [], 0⟩) =
      (⟨1, .str "sum", ["missing tests", "no logging"], ["add tests"], "m"⟩ :
        StoredReview) :: rest) :=
  ⟨rfl, by decide, by decide, by decide,
    C3_amended_roundtrip ⟨true, 1, [], 0⟩ "sum" "m" ["missing tests", "no logging"]
      ["add tests"] 1 rfl (by decide) (by decide) (by decide)⟩

/-- C5 counterexample: the reply text `"[]"` parses as JSON (an array), yet
the handler answers with the fallback: the model tag is
`fallback:AttributeError` and the summary is the canned demo text, not the
empty-string default the claim requires for a missing key. -/
theorem C5_parsed_json_counterexample :
    (match ai_review ⟨none, some "k", none⟩ (.reply (some "[]"))
        (fun _ => .ok (.arr [])) "d" ⟨true, 1, [], 0⟩ with
      | .ok (r, _) => (r.model, r.summary)
      | .error _ => ("", .null)) =
      ("fallback:AttributeError", .str "This change adds a print statement.") ∧
    "This change adds a print statement." ≠ "" :=
  ⟨rfl, by decide⟩

/-- C5 (amended): for every diff and every generator reply whose text
parses as a JSON object whose "risks" and "improvements" entries, when
present, are arrays of strings, the handler returns the success response:
all four fields present, risks/improvements string sequences (possibly
empty), any missing key defaulting to the empty string (summary) or the
empty array (risks, improvements), and the model identifier returned by
the generator. -/
theorem C5_amended_object_defaults (env : Env) (jl : String → Except PyExc JsonVal)
    (diff text : String) (st : Store) (kvs : List (String × JsonVal))
    (h1 : mockEnabled env = false) (h2 : pyTruthy env.apiKey = true)
    (h3 : pyStrip text ≠ "")
    (h4 : jl (pyStrip text) = .ok (.obj kvs))
    (h5 : fieldOk kvs "risks" = true) (h6 : fieldOk kvs "improvements" = true) :
    ∃ st1, ai_review env (.reply (some text)) jl diff st =
      .ok ({ summary := lookupD kvs "summary" (.str ""),
             risks := lookupD kvs "risks" (.arr []),
             improvements := lookupD kvs "improvements" (.arr []),
             raw := some (pyStrip text), model := MODEL_NAME env,
             error := none, rtype := "code-review" }, st1) ∧
      isStrArr (lookupD kvs "risks" (.arr [])) = true ∧
      isStrArr (lookupD kvs "improvements" (.arr [])) = true := by
  have hgen : generate_review env (.reply (some text)) (promptFor (pyStrip diff)) =
      .ok (pyStrip text, MODEL_NAME env) := by
    simp [generate_review, h2, pyOrEmpty, h3]
  have hjl2 : jl (pyStrip (pyStrip text)) = .ok (.obj kvs) := by
    rw [pyStrip_idem]
    exact h4
  have hex : extractFields (.obj kvs) =
      .ok (lookupD kvs "summary" (.str ""), lookupD kvs "risks" (.arr []),
        lookupD kvs "improvements" (.arr [])) := rfl
  have hr2 := isStrArr_lookupD kvs "risks" h5
  have hi2 := isStrArr_lookupD kvs "improvements" h6
  obtain ⟨st1, hsd⟩ := save_review_dyn_ok (lookupD kvs "summary" (.str ""))
    (lookupD kvs "risks" (.arr [])) (lookupD kvs "improvements" (.arr []))
    (MODEL_NAME env) st (pyJoinDyn_ok_of_isStrArr ", " _ hr2)
    (pyJoinDyn_ok_of_isStrArr ", " _ hi2)
  refine ⟨st1, ?_, hr2, hi2⟩
  simp [ai_review, h1, gemini_try, hgen, hjl2, hex, hsd]

theorem C5_amended_object_defaults_witness :
    mockEnabled ⟨some "false", some "k", none⟩ = false ∧
    pyTruthy (⟨some "false", some "k", none⟩ : Env).apiKey = true ∧
    pyStrip "j" ≠ "" ∧
    (fun (_ : String) => (Except.ok (JsonVal.obj
      [("risks", JsonVal.arr [JsonVal.str "r1"])]) : Except PyExc JsonVal)) (pyStrip "j") =
      .ok (.obj [("risks", .arr [.str "r1"])]) ∧
    fieldOk [("risks", JsonVal.arr [JsonVal.str "r1"])] "risks" = true ∧
    fieldOk [("risks", JsonVal.arr [JsonVal.str "r1"])] "improvements" = true ∧
    (∃ st1, ai_review ⟨some "false", some "k", none⟩ (.reply (some "j"))
        (fun _ => .ok (.obj [("risks", .arr [.str "r1"])])) "d" ⟨true, 1, [], 0⟩ =
      .ok ({ summary := lookupD [("risks", JsonVal.arr [JsonVal.str "r1"])] "summary" (.str ""),
             risks := lookupD [("risks", JsonVal.arr [JsonVal.str "r1"])] "risks" (.arr []),
             improvements := lookupD [("risks", JsonVal.arr [JsonVal.str "r1"])]
               "improvements" (.arr []),
             raw := some (pyStrip "j"),
             model := MODEL_NAME ⟨some "false", some "k", none⟩,
             error := none, rtype := "code-review" }, st1) ∧
      isStrArr (lookupD [("risks", JsonVal.arr [JsonVal.str "r1"])] "risks" (.arr [])) = true ∧
      isStrArr (lookupD [("risks", JsonVal.arr [JsonVal.str "r1"])]
        "improvements" (.arr [])) = true) :=
  ⟨rfl, rfl, by decide, rfl, rfl, rfl,
    C5_amended_object_defaults ⟨some "false", some "k", none⟩
      (fun _ => .ok (.obj [("risks", .arr [.str "r1"])])) "d" "j" ⟨true, 1, [], 0⟩
      [("risks", JsonVal.arr [JsonVal.str "r1"])] rfl rfl (by decide) rfl rfl rfl⟩

/-- C6: list(limit) returns at most limit records, ordered newest first by
strictly descending id (over stores satisfying the reachability invariant
`StoreInv`), and after saving three reviews in sequence on configured
storage, list(2) returns exactly the last two inserted, most recent
first. -/
theorem C6_list_limit_order (limit : Nat) (st : Store) :
    (list_reviews limit st).length ≤ limit ∧
    (StoreInv st → (list_reviews limit st).Pairwise (fun a b => b.id < a.id)) ∧
    (∀ s1 r1 i1 m1 s2 r2 i2 m2 s3 r3 i3 m3, st.configured = true →
      list_reviews 2 (save_review s3 r3 i3 m3 (save_review s2 r2 i2 m2
          (save_review s1 r1 i1 m1 st))) =
        [rowToItem ⟨st.nextId + 2, .str s3, pyJoinStrs ", " r3, pyJoinStrs ", " i3, m3⟩,
         rowToItem ⟨st.nextId + 1, .str s2, pyJoinStrs ", " r2, pyJoinStrs ", " i2, m2⟩]) := by
  refine ⟨?_, ?_, ?_⟩
  · by_cases hc : st.configured = true
    · simp only [list_reviews, hc, if_true, List.length_map, List.length_take]
      exact Nat.min_le_left _ _
    · simp [list_reviews, hc]
  · intro hinv
    by_cases hc : st.configured = true
    · simp only [list_reviews, hc, if_true]
      rw [List.pairwise_map]
      exact List.Pairwise.sublist (List.take_sublist _ _)
        (List.pairwise_reverse.mpr hinv.1)
    · simp [list_reviews, hc]
  · intro s1 r1 i1 m1 s2 r2 i2 m2 s3 r3 i3 m3 hc
    simp [save_review, hc, list_reviews, List.reverse_append]

theorem C6_list_limit_order_witness :
    StoreInv ⟨true, 1, [], 0⟩ ∧ (⟨true, 1, [], 0⟩ : Store).configured = true ∧
    (list_reviews 2 (⟨true, 1, [], 0⟩ : Store)).Pairwise (fun a b => b.id < a.id) ∧
    list_reviews 2 (save_review "s3" ["r3"] [] "m3" (save_review "s2" ["r2"] [] "m2"
        (save_review "s1" ["r1"] [] "m1" ⟨true, 1, [], 0⟩))) =
      [rowToItem ⟨1 + 2, .str "s3", pyJoinStrs ", " ["r3"], pyJoinStrs ", " [], "m3"⟩,
       rowToItem ⟨1 + 1, .str "s2", pyJoinStrs ", " ["r2"], pyJoinStrs ", " [], "m2"⟩] :=
  ⟨⟨List.Pairwise.nil, by simp⟩, rfl,
   (C6_list_limit_order 2 ⟨true, 1, [], 0⟩).2.1 ⟨List.Pairwise.nil, by simp⟩,
   (C6_list_limit_order 2 ⟨true, 1, [], 0⟩).2.2 "s1" ["r1"] [] "m1" "s2" ["r2"] []
     "m2" "s3" ["r3"] [] "m3" rfl⟩

/-- C10: every risks or improvements element of every record returned by
list_reviews is a nonempty string equal to its own strip (no leading or
trailing whitespace), regardless of what was saved. -/
theorem C10_list_fields_trimmed (limit : Nat) (st : Store) (sr : StoredReview)
    (hsr : sr ∈ list_reviews limit st) :
    (∀ x ∈ sr.risks, x ≠ "" ∧ pyStrip x = x) ∧
    (∀ x ∈ sr.improvements, x ≠ "" ∧ pyStrip x = x) := by
  unfold list_reviews at hsr
  by_cases hc : st.configured = true
  · rw [if_pos hc] at hsr
    obtain ⟨r, _, rfl⟩ := List.mem_map.mp hsr
    constructor
    · intro x hx
      exact cleanSplit_elem r.risks x hx
    · intro x hx
      exact cleanSplit_elem r.improvements x hx
  · rw [if_neg hc] at hsr
    simp at hsr

theorem C10_list_fields_trimmed_witness :
    ((⟨1, .str "s", ["a", "b"], [], "m"⟩ : StoredReview) ∈
      list_reviews 10 ⟨true, 2, [⟨1, .str "s", " a, ,b ", "", "m"⟩], 0⟩) ∧
    "a" ∈ (⟨1, .str "s", ["a", "b"], [], "m"⟩ : StoredReview).risks ∧
    ("a" ≠ "" ∧ pyStrip "a" = "a") := by
  have hlist : list_reviews 10 ⟨true, 2, [⟨1, .str "s", " a, ,b ", "", "m"⟩], 0⟩ =
      [⟨1, .str "s", ["a", "b"], [], "m"⟩] := rfl
  have hmem : (⟨1, .str "s", ["a", "b"], [], "m"⟩ : StoredReview) ∈
      list_reviews 10 ⟨true, 2, [⟨1, .str "s", " a, ,b ", "", "m"⟩], 0⟩ := by
    rw [hlist]
    exact List.mem_singleton.mpr rfl
  exact ⟨hmem, by decide,
    (C10_list_fields_trimmed 10 ⟨true, 2, [⟨1, .str "s", " a, ,b ", "", "m"⟩], 0⟩
      ⟨1, .str "s", ["a", "b"], [], "m"⟩ hmem).1 "a" (by decide)⟩

end DevSync
